import Mathlib

/-!
# Verification of the sales-analyzer pipeline

Shallow embedding of the data pipeline in `src/app.py`: schema validation,
filtering, aggregation, naive/moving-average forecasting, and error-metric
computation (MAE, MSE = RMSE², MAPE).

Modelling conventions:
* Calendar dates are embedded as integers (day numbers); `timedelta(days=1)`
  is `+ 1`, and `pd.date_range(start, periods = h)` is the arithmetic
  progression `start, start + 1, …, start + h - 1`.
* `Sales` values are rationals (exact arithmetic; the floats of the source
  carry no rounding semantics the spec relies on).
* A pandas `DataFrame` of records is a `List Record`; a pandas `Series.mean()`
  is `meanOpt`, which returns `none` on an empty series exactly where pandas
  returns `NaN` (the only place a `NaN` can arise in the pipeline).
* `groupby` with the default `sort=True` is modelled by sorting the distinct
  keys and summing the matching rows per key.
-/

namespace SalesAnalyzer

/-- One input row of the uploaded table: `Date`, `Region`, `Product`, `Sales`
(columns of `needed_cols` in `src/app.py`). -/
structure Record where
  date : ℤ
  region : String
  product : String
  sales : ℚ
deriving DecidableEq, Repr

/-- The resolved sidebar filter state of `src/app.py` (lines 33-43):
`region_filter`, `product_filter` (multiselect values; empty list = no
restriction) and the inclusive date range `(start_date, end_date)`. -/
structure FilterSpec where
  regions : List String
  products : List String
  startDate : ℤ
  endDate : ℤ
deriving DecidableEq, Repr

/-- The filter engine of `src/app.py` lines 45-53: starting from a copy of the
data, restrict by `Region.isin(region_filter)` when `region_filter` is
non-empty, then by `Product.isin(product_filter)` when `product_filter` is
non-empty, then keep rows with `start_date <= Date <= end_date`.  The source
operates on a copy (`df.copy()`), and this embedding is a pure function, so
the input dataset is never mutated. -/
def applyFilter (df : List Record) (fs : FilterSpec) : List Record :=
  let f1 := if fs.regions.isEmpty then df
            else df.filter (fun r => fs.regions.contains r.region)
  let f2 := if fs.products.isEmpty then f1
            else f1.filter (fun r => fs.products.contains r.product)
  f2.filter (fun r => decide (fs.startDate ≤ r.date) && decide (r.date ≤ fs.endDate))

/-- The spec's record predicate, written from the spec's words (§4.2): include
a record iff (region set empty OR region ∈ set) AND (product set empty OR
product ∈ set) AND (start ≤ date ≤ end), both date bounds inclusive.  Used to
compare the sequential filtering of the source against the conjunctive
predicate the spec describes. -/
def matchesSpec (fs : FilterSpec) (r : Record) : Bool :=
  (fs.regions.isEmpty || fs.regions.contains r.region) &&
  (fs.products.isEmpty || fs.products.contains r.product) &&
  (decide (fs.startDate ≤ r.date) && decide (r.date ≤ fs.endDate))

/-- `Series.mean()` of pandas: the arithmetic mean of a list of rationals,
`none` when the list is empty (where pandas yields `NaN`). -/
def meanOpt (l : List ℚ) : Option ℚ :=
  if l.isEmpty then none else some (l.sum / (l.length : ℚ))

/-- pandas `df.groupby(key, as_index=False)["Sales"].sum()` with the default
`sort=True`: one output row per distinct key value, keys sorted ascending,
value = sum of `Sales` over the input rows sharing that key. -/
def groupSum {α : Type} [LinearOrder α] [DecidableEq α]
    (key : Record → α) (df : List Record) : List (α × ℚ) :=
  (((df.map key).insertionSort (fun a b => a ≤ b)).dedup).map
    fun k => (k, ((df.filter (fun r => decide (key r = k))).map Record.sales).sum)

/-- `grouped_by_date` of `src/app.py` line 60:
`filtered_df.groupby("Date", as_index=False)["Sales"].sum().sort_values("Date")`.
One entry per distinct date, keys sorted ascending, value = sum of `Sales`
over the rows sharing that date. -/
def groupedByDate (df : List Record) : List (ℤ × ℚ) :=
  groupSum Record.date df

/-- `grouped_by_product` of `src/app.py` line 86:
`filtered_df.groupby("Product", as_index=False)["Sales"].sum()`.  pandas
`groupby` uses `sort=True` by default, so the group keys come out sorted
ascending (lexicographically for strings), not in order of first appearance. -/
def groupedByProduct (df : List Record) : List (String × ℚ) :=
  groupSum Record.product df

/-- `grouped_by_region` of `src/app.py` line 93, same shape as
`groupedByProduct`. -/
def groupedByRegion (df : List Record) : List (String × ℚ) :=
  groupSum Record.region df

/-- The order of first appearance of the product values, written from the
spec's words (§4.3: "order is insertion/grouping order") for comparison with
the key order `groupedByProduct` actually produces. -/
def firstAppearanceProducts (df : List Record) : List String :=
  (df.map Record.product).dedup

/-- `peak_day` of `src/app.py` lines 79-80: `max_sale` is the maximum of the
`Sales` column of `grouped_by_date`, and the peak day is the LAST entry of
`grouped_by_date[grouped_by_date["Sales"] == max_sale]["Date"].tolist()`. -/
def peakDay (s : List (ℤ × ℚ)) : ℤ × ℚ :=
  let maxSale := ((s.map Prod.snd).max?).getD 0
  (((s.filter (fun p => decide (p.2 = maxSale))).map Prod.fst).getLastD 0, maxSale)

/-- One row of `forecast_df` (`src/app.py` lines 109-117): a future date with
the constant `Naive Forecast` and `Moving Average` columns. -/
structure ForecastRow where
  date : ℤ
  naive : ℚ
  movingAverage : ℚ
deriving DecidableEq, Repr

/-- `iloc[-n:]`: the last `min n (length l)` elements of `l`. -/
def lastN (n : ℕ) (l : List ℚ) : List ℚ := l.drop (l.length - n)

/-- The forecaster of `src/app.py` lines 104-117: `last_day` is
`grouped_by_date["Date"].max()`, the forecast index is
`pd.date_range(start = last_day + 1 day, periods = horizon)`, the
`Naive Forecast` column is the constant `grouped_by_date["Sales"].iloc[-1]`,
and the `Moving Average` column is the constant
`grouped_by_date["Sales"].iloc[-7:].mean()`. -/
def forecastDf (s : List (ℤ × ℚ)) (horizon : ℕ) : List ForecastRow :=
  let lastDay := ((s.map Prod.fst).max?).getD 0
  let naiveVal := (s.map Prod.snd).getLastD 0
  let ma := (meanOpt (lastN 7 (s.map Prod.snd))).getD 0
  (List.range horizon).map fun i : ℕ => ⟨lastDay + 1 + (i : ℤ), naiveVal, ma⟩

/-- One retained row of the evaluation table (`src/app.py` lines 133-141):
`Actuals`, the lag-1 `Naive Prediction`, `Absolute Error` and
`Squared Error`. -/
structure EvalRow where
  date : ℤ
  actual : ℚ
  naivePrediction : ℚ
  absoluteError : ℚ
  squaredError : ℚ
deriving DecidableEq, Repr

/-- `filtered_grouped_by_date` of `src/app.py` lines 135-141: shift the
`Actuals` column down by one day to get `Naive Prediction`, derive
`Absolute Error = |Actuals - Naive Prediction|` and
`Squared Error = (Actuals - Naive Prediction) ** 2`, then drop the first row
(`iloc[1:]`), whose prediction is undefined.  Pairing each element of
`s.tail` with its predecessor in `s` yields exactly the retained rows. -/
def evalTable (s : List (ℤ × ℚ)) : List EvalRow :=
  (s.zip s.tail).map fun pc =>
    ⟨pc.2.1, pc.2.2, pc.1.2, |pc.2.2 - pc.1.2|, (pc.2.2 - pc.1.2) ^ 2⟩

/-- `mae` of `src/app.py` line 149: mean of `Absolute Error` over all retained
rows. -/
def mae (s : List (ℤ × ℚ)) : Option ℚ :=
  meanOpt ((evalTable s).map EvalRow.absoluteError)

/-- `mse` of `src/app.py` line 151: mean of `Squared Error` over all retained
rows.  The displayed RMSE is `mse ** 0.5`; every claim about contributions to
RMSE is equivalent to the same claim about `mse`, since the square root is a
strictly monotone function of it. -/
def mse (s : List (ℤ × ℚ)) : Option ℚ :=
  meanOpt ((evalTable s).map EvalRow.squaredError)

/-- `mape` of `src/app.py` lines 155-159: restrict the retained rows to those
with `Actuals != 0`, form `ape = Absolute Error / Actuals` (the SIGNED actual,
not its absolute value), and take the mean of `ape * 100`. -/
def mape (s : List (ℤ × ℚ)) : Option ℚ :=
  meanOpt (((evalTable s).filter (fun r => decide (r.actual ≠ 0))).map
    (fun r => r.absoluteError / r.actual * 100))

/-- MAPE written from the spec's words (§4.5 step 5: "mean of
(|absolute error| / |actual| × 100)" over the rows with nonzero actual), for
comparison with the `mape` the source computes. -/
def specMape (s : List (ℤ × ℚ)) : Option ℚ :=
  meanOpt (((evalTable s).filter (fun r => decide (r.actual ≠ 0))).map
    (fun r => |r.absoluteError| / |r.actual| * 100))

/-- Everything the non-empty branch of `src/app.py` (lines 64-168) computes
from the filtered data. -/
structure PipelineOut where
  series : List (ℤ × ℚ)
  salesTotal : ℚ
  peak : ℤ × ℚ
  byProduct : List (String × ℚ)
  byRegion : List (String × ℚ)
  forecast : List ForecastRow
  evalRows : List EvalRow
  maeOut : Option ℚ
  mseOut : Option ℚ
  mapeOut : Option ℚ
deriving DecidableEq, Repr

/-- The reactive body of `src/app.py` as a pure pipeline: filter, then either
the "No data for selected filters" state (`filtered_df.empty`, line 62 —
result `none`) or the full set of derived tables and metrics.  The forecaster
and evaluator run exactly when the filtered data is non-empty. -/
def runPipeline (df : List Record) (fs : FilterSpec) (horizon : ℕ) :
    Option PipelineOut :=
  let fd := applyFilter df fs
  let s := groupedByDate fd
  if fd.isEmpty then none
  else some ⟨s, (fd.map Record.sales).sum, peakDay s, groupedByProduct fd,
    groupedByRegion fd, forecastDf s horizon, evalTable s, mae s, mse s, mape s⟩

/-! ## Schema validation (`src/app.py` lines 16-31) -/

/-- The required columns, `needed_cols` of `src/app.py` line 16. -/
def needed_cols : List String := ["Date", "Region", "Product", "Sales"]

/-- Python's `str.strip()` as used on the column headers (`src/app.py`
line 24): remove leading and trailing whitespace. -/
def stripHeader (s : String) : String :=
  ⟨((s.data.dropWhile Char.isWhitespace).reverse.dropWhile Char.isWhitespace).reverse⟩

/-- Modelled from the spec: `pd.to_datetime(df["Date"], format="%Y-%m-%d")`
is pandas library code, not part of `src/`; §4.1 of the spec describes it as
accepting exactly a 4-digit year, 2-digit month and 2-digit day separated by
dashes, failing for the whole dataset when any row deviates. -/
def dateFormatOk (s : String) : Bool :=
  match s.data with
  | [y1, y2, y3, y4, d1, m1, m2, d2, a1, a2] =>
    y1.isDigit && y2.isDigit && y3.isDigit && y4.isDigit &&
    (d1 = '-') && m1.isDigit && m2.isDigit && (d2 = '-') &&
    a1.isDigit && a2.isDigit
  | _ => false

/-- The raw uploaded table: a header row and data rows (each row's cells
aligned with the headers). -/
structure RawTable where
  headers : List String
  rows : List (List String)
deriving DecidableEq, Repr

/-- How a run of `src/app.py` lines 23-31 ends. -/
inductive LoadResult where
  /-- An uncaught Python `KeyError` for the named column (raised by
  `df["Date"]` on line 25 when no `Date` column exists). -/
  | keyError (column : String)
  /-- `pd.to_datetime` rejects some date cell (the spec's `FormatError`). -/
  | formatError
  /-- `st.error(msg); st.stop()` on lines 28-29 (the spec's `SchemaError`). -/
  | schemaError (msg : String)
  /-- `st.success` plus the `Rows: r x Columns: c` line (lines 30-31). -/
  | ok (rowCount : ℕ) (colCount : ℕ)
deriving DecidableEq, Repr

/-- `src/app.py` lines 23-31 in order: strip the headers, parse the `Date`
column (a missing `Date` column raises `KeyError` here, BEFORE the required
column check; a malformed date raises the format error), then scan
`needed_cols` and stop at the FIRST missing column with the fixed message
`"Missing necessary column."`, else succeed with `df.shape`. -/
def loadCsv (t : RawTable) : LoadResult :=
  let headers := t.headers.map stripHeader
  match headers.findIdx? (fun c => c = "Date") with
  | none => .keyError "Date"
  | some i =>
    if t.rows.all (fun row => dateFormatOk (row.getD i "")) then
      match needed_cols.find? (fun c => !headers.contains c) with
      | some _ => .schemaError "Missing necessary column."
      | none => .ok t.rows.length headers.length
    else .formatError

/-- The date-parse check of `loadCsv` as a standalone predicate: every cell of
the (stripped) `Date` column matches the fixed format.  When the `Date` column
exists this coincides with the test `loadCsv` performs. -/
def datesOk (t : RawTable) : Bool :=
  t.rows.all fun row =>
    dateFormatOk
      (row.getD (((t.headers.map stripHeader).findIdx? (fun c => c = "Date")).getD 0) "")

/-! ## Helper lemmas -/

/-- The key column of a `groupSum` is the deduplicated sorted key list. -/
theorem groupSum_keys {α : Type} [LinearOrder α] [DecidableEq α]
    (key : Record → α) (df : List Record) :
    (groupSum key df).map Prod.fst
      = ((df.map key).insertionSort (fun a b => a ≤ b)).dedup := by
  rw [groupSum, List.map_map]
  exact List.map_id _

/-- The keys of a `groupSum` are strictly sorted. -/
theorem groupSum_keys_sorted {α : Type} [LinearOrder α] [DecidableEq α]
    (key : Record → α) (df : List Record) :
    List.Sorted (fun a b => a < b) ((groupSum key df).map Prod.fst) := by
  rw [groupSum_keys]
  have hs : List.Sorted (fun a b : α => a ≤ b)
      ((df.map key).insertionSort (fun a b => a ≤ b)) :=
    List.sorted_insertionSort _ _
  have hsub := List.dedup_sublist ((df.map key).insertionSort (fun a b => a ≤ b))
  exact List.Sorted.lt_of_le (List.Pairwise.sublist hsub hs) (List.nodup_dedup _)

/-- A value occurs among the keys of a `groupSum` iff some record has it. -/
theorem groupSum_mem_keys {α : Type} [LinearOrder α] [DecidableEq α]
    (key : Record → α) (df : List Record) (k : α) :
    k ∈ (groupSum key df).map Prod.fst ↔ k ∈ df.map key := by
  rw [groupSum_keys, List.mem_dedup, (List.perm_insertionSort _ _).mem_iff]

/-- Each entry of a `groupSum` carries the sum of the matching records. -/
theorem groupSum_val {α : Type} [LinearOrder α] [DecidableEq α]
    (key : Record → α) (df : List Record) {p : α × ℚ} (hp : p ∈ groupSum key df) :
    p.2 = ((df.filter (fun r => decide (key r = p.1))).map Record.sales).sum := by
  simp only [groupSum, List.mem_map] at hp
  obtain ⟨k, _, rfl⟩ := hp
  rfl

/-- Splitting a sum of mapped values along a Boolean predicate. -/
theorem sum_map_filter_split {β : Type} (p : β → Bool) (f : β → ℚ) (l : List β) :
    ((l.filter p).map f).sum + ((l.filter (fun b => !p b)).map f).sum
      = (l.map f).sum := by
  induction l with
  | nil => simp
  | cons a t ih =>
    cases hp : p a <;> simp [List.filter_cons, hp] <;> linarith [ih]

/-- Summing the per-key fiber sums over a duplicate-free key list covering
every record gives the total sum. -/
theorem sum_fiber {α : Type} [DecidableEq α] (key : Record → α) :
    ∀ (keys : List α) (l : List Record), keys.Nodup → (∀ r ∈ l, key r ∈ keys) →
      (keys.map
        (fun k => ((l.filter (fun r => decide (key r = k))).map Record.sales).sum)).sum
        = (l.map Record.sales).sum := by
  intro keys
  induction keys with
  | nil =>
    intro l _ hcov
    have hl : l = [] := by
      cases l with
      | nil => rfl
      | cons r t => exact absurd (hcov r (by simp)) (by simp)
    simp [hl]
  | cons k ks ih =>
    intro l hnd hcov
    have hsplit := sum_map_filter_split (fun r => decide (key r = k)) Record.sales l
    have hnotmem : k ∉ ks := by
      have := hnd
      simp [List.nodup_cons] at this
      exact this.1
    have htail : (ks.map
        (fun k2 => ((l.filter (fun r => decide (key r = k2))).map Record.sales).sum)).sum
        = (ks.map (fun k2 =>
            (((l.filter (fun r => !decide (key r = k))).filter
              (fun r => decide (key r = k2))).map Record.sales).sum)).sum := by
      apply congrArg List.sum
      apply List.map_congr_left
      intro k2 hk2
      have hne : k2 ≠ k := fun h => hnotmem (h ▸ hk2)
      rw [List.filter_filter]
      apply congrArg _ (congrArg _ ?_)
      apply List.filter_congr
      intro r _
      by_cases h : key r = k2 <;> simp [h]
      exact hne
    have hcov2 : ∀ r ∈ l.filter (fun r => !decide (key r = k)), key r ∈ ks := by
      intro r hr
      simp only [List.mem_filter, Bool.not_eq_eq_eq_not, Bool.not_true,
        decide_eq_false_iff_not] at hr
      have := hcov r hr.1
      simp only [List.mem_cons] at this
      exact this.resolve_left hr.2
    have hrec := ih (l.filter (fun r => !decide (key r = k)))
      ((List.nodup_cons.mp hnd).2) hcov2
    calc ((k :: ks).map
        (fun k2 => ((l.filter (fun r => decide (key r = k2))).map Record.sales).sum)).sum
        = ((l.filter (fun r => decide (key r = k))).map Record.sales).sum
          + (ks.map (fun k2 =>
              ((l.filter (fun r => decide (key r = k2))).map Record.sales).sum)).sum := by
          simp
      _ = ((l.filter (fun r => decide (key r = k))).map Record.sales).sum
          + ((l.filter (fun r => !decide (key r = k))).map Record.sales).sum := by
          rw [htail, hrec]
      _ = (l.map Record.sales).sum := hsplit

/-- A `groupSum` preserves the total sum of sales. -/
theorem groupSum_sum {α : Type} [LinearOrder α] [DecidableEq α]
    (key : Record → α) (df : List Record) :
    ((groupSum key df).map Prod.snd).sum = (df.map Record.sales).sum := by
  unfold groupSum
  rw [List.map_map]
  have : (Prod.snd ∘ fun k : α =>
      (k, ((df.filter (fun r => decide (key r = k))).map Record.sales).sum))
      = fun k => ((df.filter (fun r => decide (key r = k))).map Record.sales).sum := rfl
  rw [this]
  apply sum_fiber
  · exact List.nodup_dedup _
  · intro r hr
    rw [List.mem_dedup, (List.perm_insertionSort _ _).mem_iff]
    exact List.mem_map_of_mem key hr

/-- The three sequential restrictions of the source filter coincide with a
single pass of the spec's conjunctive predicate. -/
theorem applyFilter_eq_filter (df : List Record) (fs : FilterSpec) :
    applyFilter df fs = df.filter (matchesSpec fs) := by
  unfold applyFilter matchesSpec
  cases hr : fs.regions.isEmpty <;> cases hp : fs.products.isEmpty <;>
    simp [hr, hp, List.filter_filter] <;>
    (apply List.filter_congr; intro r _) <;>
    cases hA : fs.regions.contains r.region <;>
    cases hB : fs.products.contains r.product <;>
    simp [hA, hB, Bool.and_comm]

/-- In a `≤`-sorted list every element is bounded by the last element. -/
theorem le_getLastD_of_sorted {α : Type} [LinearOrder α] :
    ∀ (l : List α), List.Sorted (fun a b => a ≤ b) l →
      ∀ (d x : α), x ∈ l → x ≤ l.getLastD d := by
  intro l
  induction l with
  | nil => intro _ d x hx; simp at hx
  | cons a t ih =>
    intro hs d x hx
    cases t with
    | nil =>
      simp at hx
      simp [hx]
    | cons b t2 =>
      rw [List.getLastD_cons]
      rcases List.mem_cons.mp hx with rfl | hx2
      · have hmem := List.getLastD_mem_cons (b :: t2) x
        rcases List.mem_cons.mp hmem with heq | hmem2
        · exact le_of_eq heq.symm
        · exact List.rel_of_sorted_cons hs _ hmem2
      · exact ih (List.Sorted.of_cons hs) a x hx2

/-- `List.max?` of a non-empty list returns an element bounding the list. -/
theorem max?_spec {α : Type} [LinearOrder α] (l : List α) (hne : l ≠ []) :
    ∃ m, l.max? = some m ∧ m ∈ l ∧ ∀ x ∈ l, x ≤ m := by
  cases hm : l.max? with
  | none => exact absurd (List.max?_eq_none_iff.mp hm) hne
  | some m =>
    refine ⟨m, rfl, ?_⟩
    haveI : Std.Antisymm (fun a b : α => a ≤ b) :=
      ⟨fun h1 h2 => le_antisymm h1 h2⟩
    exact (List.max?_eq_some_iff (le_refl) (fun a b => max_choice a b)
      (fun a b c => max_le_iff)).mp hm

/-- On a non-empty `≤`-sorted list, `max?` is the last element. -/
theorem max?_eq_getLastD {α : Type} [LinearOrder α] (l : List α) (hne : l ≠ [])
    (hs : List.Sorted (fun a b => a ≤ b) l) (d : α) :
    l.max? = some (l.getLastD d) := by
  obtain ⟨m, hm, hmem, hub⟩ := max?_spec l hne
  rw [hm]
  have h1 : m ≤ l.getLastD d := le_getLastD_of_sorted l hs d m hmem
  have h2 : l.getLastD d ≤ m := by
    apply hub
    rw [List.getLastD_eq_getLast?, List.getLast?_eq_getLast l hne]
    exact List.getLast_mem hne
  exact congrArg some (le_antisymm h1 h2)

/-! ## Claims -/

/-- C5: for every Dataset and FilterSpec the filter engine returns exactly the
records satisfying (region set empty OR region ∈ set) AND (product set empty
OR product ∈ set) AND (start ≤ date ≤ end), both date bounds inclusive: the
three sequential restrictions equal one pass of the spec predicate, the output
is a subsequence of the input in the original row order, and membership in the
output is characterized by the spec's conjunction.  The embedding is a pure
function on an immutable list, matching the source's `df.copy()`: the input
dataset is not mutated. -/
theorem filter_engine_correct (df : List Record) (fs : FilterSpec) :
    applyFilter df fs = df.filter (matchesSpec fs) ∧
    (applyFilter df fs).Sublist df ∧
    ∀ r : Record, r ∈ applyFilter df fs ↔
      (r ∈ df ∧ (fs.regions = [] ∨ r.region ∈ fs.regions) ∧
        (fs.products = [] ∨ r.product ∈ fs.products) ∧
        fs.startDate ≤ r.date ∧ r.date ≤ fs.endDate) := by
  refine ⟨applyFilter_eq_filter df fs, ?_, ?_⟩
  · rw [applyFilter_eq_filter]
    exact List.filter_sublist _
  · intro r
    rw [applyFilter_eq_filter, List.mem_filter]
    simp [matchesSpec, List.isEmpty_iff, and_assoc]

/-- C9: filtering is idempotent — applying the filter engine to its own output
with the same FilterSpec returns that output unchanged. -/
theorem filter_idempotent (df : List Record) (fs : FilterSpec) :
    applyFilter (applyFilter df fs) fs = applyFilter df fs := by
  rw [applyFilter_eq_filter df fs, applyFilter_eq_filter, List.filter_filter]
  apply List.filter_congr
  intro r _
  exact Bool.and_self _

/-- C10: when the FilterSpec's start date is strictly after its end date the
date predicate is unsatisfiable, so the filter returns the empty dataset and
the pipeline takes the "no data" branch (`none`): the forecaster and evaluator
are not invoked. -/
theorem empty_range_no_data (df : List Record) (fs : FilterSpec) (horizon : ℕ)
    (h : fs.endDate < fs.startDate) :
    applyFilter df fs = [] ∧ runPipeline df fs horizon = none := by
  have h1 : applyFilter df fs = [] := by
    rw [applyFilter_eq_filter, List.filter_eq_nil_iff]
    intro r _
    simp [matchesSpec]
    intro _ _ h2
    omega
  refine ⟨h1, ?_⟩
  simp [runPipeline, h1]

/-- Witness for C10 at a concrete dataset and an inverted date range. -/
theorem empty_range_no_data_witness :
    applyFilter [⟨0, "N", "A", 1⟩] ⟨[], [], 5, 3⟩ = [] ∧
    runPipeline [⟨0, "N", "A", 1⟩] ⟨[], [], 5, 3⟩ 7 = none :=
  empty_range_no_data _ _ 7 (by decide)

/-- C6: per-date aggregation of a filtered dataset is a sum-preserving
partition — the DailySeries values sum to the total Sales of the retained
records — and the DailySeries has one entry per distinct date, sorted strictly
ascending with no duplicates. -/
theorem aggregation_sum_invariant (df : List Record) (fs : FilterSpec) :
    ((groupedByDate (applyFilter df fs)).map Prod.snd).sum
      = ((applyFilter df fs).map Record.sales).sum ∧
    List.Sorted (fun a b => a < b) ((groupedByDate (applyFilter df fs)).map Prod.fst) ∧
    ((groupedByDate (applyFilter df fs)).map Prod.fst).Nodup ∧
    ∀ d : ℤ, (d ∈ (groupedByDate (applyFilter df fs)).map Prod.fst ↔
      d ∈ (applyFilter df fs).map Record.date) := by
  refine ⟨groupSum_sum _ _, groupSum_keys_sorted _ _, ?_,
    fun d => groupSum_mem_keys _ _ d⟩
  have hk := groupSum_keys Record.date (applyFilter df fs)
  rw [show groupedByDate (applyFilter df fs)
      = groupSum Record.date (applyFilter df fs) from rfl, hk]
  exact List.nodup_dedup _

/-- Unfolding of `forecastDf` with its `let` bindings inlined. -/
theorem forecastDf_eq (s : List (ℤ × ℚ)) (horizon : ℕ) :
    forecastDf s horizon = (List.range horizon).map
      (fun i : ℕ => ⟨((s.map Prod.fst).max?).getD 0 + 1 + (i : ℤ),
        (s.map Prod.snd).getLastD 0,
        (meanOpt (lastN 7 (s.map Prod.snd))).getD 0⟩) := rfl

/-- C4: for every non-empty DailySeries and every horizon the forecaster
returns exactly `horizon` rows; their dates are the contiguous calendar days
starting the day after the last historical date; the naive column is the
constant last observed value; and the moving-average column is the constant
arithmetic mean of the last `min 7 (series length)` observed values (all of
them when fewer than 7 exist — short series never fail). -/
theorem forecaster_correct (s : List (ℤ × ℚ)) (horizon : ℕ) (hne : s ≠ [])
    (hsort : List.Sorted (fun a b : ℤ × ℚ => a.1 < b.1) s) :
    (forecastDf s horizon).length = horizon ∧
    (forecastDf s horizon).map ForecastRow.date
      = (List.range horizon).map (fun i : ℕ => (s.map Prod.fst).getLastD 0 + 1 + (i : ℤ)) ∧
    ∀ row ∈ forecastDf s horizon,
      row.naive = (s.map Prod.snd).getLastD 0 ∧
      row.movingAverage
        = (lastN 7 (s.map Prod.snd)).sum / ((min 7 s.length : ℕ) : ℚ) := by
  have hne2 : s.map Prod.fst ≠ [] := by simp [hne]
  have hsort2 : List.Sorted (fun a b : ℤ => a ≤ b) (s.map Prod.fst) :=
    List.Pairwise.map Prod.fst (fun a b hab => le_of_lt hab) hsort
  have hmax : (s.map Prod.fst).max? = some ((s.map Prod.fst).getLastD 0) :=
    max?_eq_getLastD _ hne2 hsort2 0
  have hlen7 : (lastN 7 (s.map Prod.snd)).length = min 7 s.length := by
    simp [lastN, List.length_drop, List.length_map]
    omega
  have hlast_ne : lastN 7 (s.map Prod.snd) ≠ [] := by
    rw [← List.length_pos, hlen7]
    have : 0 < s.length := List.length_pos.mpr hne
    omega
  have hma : (meanOpt (lastN 7 (s.map Prod.snd))).getD 0
      = (lastN 7 (s.map Prod.snd)).sum / ((min 7 s.length : ℕ) : ℚ) := by
    rw [meanOpt, if_neg (by simp [hlast_ne]), Option.getD_some, hlen7]
  refine ⟨by rw [forecastDf_eq, List.length_map, List.length_range], ?_, ?_⟩
  · rw [forecastDf_eq, List.map_map]
    simp only [hmax, Option.getD_some]
    rfl
  · intro row hrow
    rw [forecastDf_eq] at hrow
    simp only [List.mem_map] at hrow
    obtain ⟨i, _, rfl⟩ := hrow
    exact ⟨rfl, hma⟩

/-- Witness for C4 at the spec's worked example: three historical days with
values 100, 150, 90 and horizon 3 give dates 3, 4, 5, naive value 90 and
moving average 340/3. -/
theorem forecaster_correct_witness :
    forecastDf [((0:ℤ), (100:ℚ)), (1, 150), (2, 90)] 3
      = [⟨3, 90, 340 / 3⟩, ⟨4, 90, 340 / 3⟩, ⟨5, 90, 340 / 3⟩] ∧
    (forecastDf [((0:ℤ), (100:ℚ)), (1, 150), (2, 90)] 3).length = 3 :=
  ⟨by norm_num [forecastDf, lastN, meanOpt, List.range_succ],
    (forecaster_correct [((0:ℤ), (100:ℚ)), (1, 150), (2, 90)] 3 (by decide)
      (by decide)).1⟩

/-- C8: for a non-empty DailySeries (sorted ascending by date) the peak-day
computation returns a pair that occurs in the series, whose value is the
maximum daily total, and whose date is the LAST date achieving that maximum:
every date tying for the maximum is ≤ the returned date. -/
theorem peak_day_correct (s : List (ℤ × ℚ)) (hne : s ≠ [])
    (hsort : List.Sorted (fun a b : ℤ × ℚ => a.1 < b.1) s) :
    peakDay s ∈ s ∧ (∀ p ∈ s, p.2 ≤ (peakDay s).2) ∧
    ∀ p ∈ s, p.2 = (peakDay s).2 → p.1 ≤ (peakDay s).1 := by
  have hvne : s.map Prod.snd ≠ [] := by simp [hne]
  obtain ⟨m, hm, hmem, hub⟩ := max?_spec (s.map Prod.snd) hvne
  have hpd : peakDay s
      = (((s.filter (fun p => decide (p.2 = m))).map Prod.fst).getLastD 0, m) := by
    simp only [peakDay, hm, Option.getD_some]
  obtain ⟨q, hqmem, hq2⟩ := List.mem_map.mp hmem
  have hqfil : q ∈ s.filter (fun p => decide (p.2 = m)) :=
    List.mem_filter.mpr ⟨hqmem, by simp [hq2]⟩
  have hmapne : (s.filter (fun p => decide (p.2 = m))).map Prod.fst ≠ [] := by
    simp only [ne_eq, List.map_eq_nil_iff]
    exact List.ne_nil_of_mem hqfil
  have hdmem : ((s.filter (fun p => decide (p.2 = m))).map Prod.fst).getLastD 0
      ∈ (s.filter (fun p => decide (p.2 = m))).map Prod.fst := by
    rw [List.getLastD_eq_getLast?, List.getLast?_eq_getLast _ hmapne]
    exact List.getLast_mem _
  obtain ⟨q2, hq2mem, hq2eq⟩ := List.mem_map.mp hdmem
  have hq2fil := List.mem_filter.mp hq2mem
  have hq2val : q2.2 = m := by simpa using hq2fil.2
  refine ⟨?_, ?_, ?_⟩
  · rw [hpd]
    have hq2id : q2 = (((s.filter (fun p => decide (p.2 = m))).map Prod.fst).getLastD 0, m) :=
      Prod.ext hq2eq hq2val
    exact hq2id ▸ hq2fil.1
  · intro p hp
    rw [hpd]
    exact hub p.2 (List.mem_map_of_mem Prod.snd hp)
  · intro p hp hpm
    rw [hpd] at hpm ⊢
    have hpfil : p ∈ s.filter (fun p2 => decide (p2.2 = m)) :=
      List.mem_filter.mpr ⟨hp, by simp [hpm]⟩
    have hsortf : List.Sorted (fun a b : ℤ => a ≤ b)
        ((s.filter (fun p2 => decide (p2.2 = m))).map Prod.fst) :=
      List.Pairwise.map Prod.fst (fun a b hab => le_of_lt hab)
        (List.Pairwise.sublist (List.filter_sublist s) hsort)
    exact le_getLastD_of_sorted _ hsortf 0 p.1 (List.mem_map_of_mem Prod.fst hpfil)

/-- Witness for C8 at a series with a tie for the maximum: among dates 1 and 2
both reaching 9, the LAST date 2 is returned (not the first). -/
theorem peak_day_correct_witness :
    peakDay [((0:ℤ), (5:ℚ)), (1, 9), (2, 9)] = (2, 9) ∧
    peakDay [((0:ℤ), (5:ℚ)), (1, 9), (2, 9)] ∈
      ([((0:ℤ), (5:ℚ)), (1, 9), (2, 9)] : List (ℤ × ℚ)) :=
  ⟨by decide,
    (peak_day_correct [((0:ℤ), (5:ℚ)), (1, 9), (2, 9)] (by decide) (by decide)).1⟩

/-- The evaluation table retains exactly one row per day after the dropped
first row. -/
theorem length_evalTable (s : List (ℤ × ℚ)) :
    (evalTable s).length = s.length - 1 := by
  simp [evalTable, List.length_zip, List.length_tail]

/-- C1 (counterexample to the claim as stated): the source divides by the
SIGNED actual, not by `|actual|`.  For the series `[(0, 100), (1, -50)]` the
retained row has absolute error 150 and actual −50, and the source computes
MAPE = −300, whereas the spec's `|absolute error| / |actual| × 100` formula
gives +300. -/
theorem mape_signed_counterexample :
    mape [((0:ℤ), (100:ℚ)), (1, -50)] = some (-300) ∧
    specMape [((0:ℤ), (100:ℚ)), (1, -50)] = some 300 ∧
    mape [((0:ℤ), (100:ℚ)), (1, -50)]
      ≠ specMape [((0:ℤ), (100:ℚ)), (1, -50)] := by
  refine ⟨?_, ?_, ?_⟩
  · norm_num [mape, evalTable, meanOpt, List.filter_cons, abs]
  · norm_num [specMape, evalTable, meanOpt, List.filter_cons, abs]
  · norm_num [mape, specMape, evalTable, meanOpt, List.filter_cons, abs]

/-- C1 (amended): MAPE is the mean of `absolute error / actual × 100` — the
SIGNED actual in the denominator, not `|actual|` — taken only over retained
rows with nonzero actual, whose count is MAPE's denominator; rows with
actual = 0 contribute no MAPE term but their absolute and squared errors do
enter MAE and MSE (hence RMSE), which average over all `length − 1` retained
rows. -/
theorem mape_zero_exclusion (s : List (ℤ × ℚ)) (h : 2 ≤ s.length) :
    mae s = some (((evalTable s).map EvalRow.absoluteError).sum
      / ((s.length - 1 : ℕ) : ℚ)) ∧
    mse s = some (((evalTable s).map EvalRow.squaredError).sum
      / ((s.length - 1 : ℕ) : ℚ)) ∧
    (∀ r ∈ evalTable s, r.absoluteError = |r.actual - r.naivePrediction| ∧
      r.squaredError = (r.actual - r.naivePrediction) ^ 2) ∧
    (evalTable s).length = s.length - 1 ∧
    ((evalTable s).filter (fun r => decide (r.actual ≠ 0)) ≠ [] →
      mape s = some
        ((((evalTable s).filter (fun r => decide (r.actual ≠ 0))).map
          (fun r => r.absoluteError / r.actual * 100)).sum
          / (((evalTable s).filter (fun r => decide (r.actual ≠ 0))).length : ℚ))) := by
  have hlen := length_evalTable s
  have hne : evalTable s ≠ [] := by
    intro hnil
    rw [hnil] at hlen
    simp at hlen
    omega
  refine ⟨?_, ?_, ?_, hlen, ?_⟩
  · rw [mae, meanOpt, if_neg (by simp [hne]), List.length_map, hlen]
  · rw [mse, meanOpt, if_neg (by simp [hne]), List.length_map, hlen]
  · intro r hr
    obtain ⟨pc, _, rfl⟩ := List.mem_map.mp hr
    exact ⟨rfl, rfl⟩
  · intro hfne
    have hm : (((evalTable s).filter (fun r => decide (r.actual ≠ 0))).map
        (fun r => r.absoluteError / r.actual * 100)) ≠ [] := by
      simpa [List.map_eq_nil_iff] using hfne
    rw [mape, meanOpt, if_neg (by simpa [List.isEmpty_iff] using hm),
      List.length_map]

/-- Witness for C1 at a series containing a zero actual: the zero-actual row
enters MAE (denominator 2) and MSE but is excluded from MAPE, whose average
runs over the single nonzero-actual row. -/
theorem mape_zero_exclusion_witness :
    mae [((0:ℤ), (100:ℚ)), (1, 0), (2, 90)] = some 95 ∧
    mse [((0:ℤ), (100:ℚ)), (1, 0), (2, 90)] = some 9050 ∧
    mape [((0:ℤ), (100:ℚ)), (1, 0), (2, 90)] = some 100 ∧
    (evalTable [((0:ℤ), (100:ℚ)), (1, 0), (2, 90)]).length
      = [((0:ℤ), (100:ℚ)), (1, 0), (2, 90)].length - 1 :=
  ⟨by norm_num [mae, meanOpt, evalTable, abs],
    by norm_num [mse, meanOpt, evalTable, abs],
    by norm_num [mape, meanOpt, evalTable, List.filter_cons, abs],
    (mape_zero_exclusion [((0:ℤ), (100:ℚ)), (1, 0), (2, 90)]
      (by decide)).2.2.2.1⟩

/-- C3 (counterexample to the claim as stated): there is no
`InsufficientDataError` and evaluation is NOT skipped for a DailySeries of
length 1 — for a one-row dataset the pipeline still produces a metrics block,
whose MAE is pandas' `NaN` (`none`), rather than producing no metrics. -/
theorem insufficient_data_counterexample :
    (groupedByDate (applyFilter [⟨0, "N", "A", 5⟩] ⟨[], [], 0, 0⟩)).length = 1 ∧
    runPipeline [⟨0, "N", "A", 5⟩] ⟨[], [], 0, 0⟩ 7 ≠ none ∧
    (runPipeline [⟨0, "N", "A", 5⟩] ⟨[], [], 0, 0⟩ 7).map PipelineOut.maeOut
      = some none := by
  refine ⟨?_, ?_, ?_⟩ <;> decide

/-- C3 (amended): evaluation is skipped iff the filtered dataset is empty
(the "no data" branch); for any series the MAE and MSE are pandas `NaN`
(`none`) iff the series has fewer than 2 points (so a length-1 series yields
a metrics block of `NaN`s instead of being skipped), and MAPE is `NaN`
(`none`) iff every retained actual is zero. -/
theorem evaluation_skip_characterization (df : List Record) (fs : FilterSpec)
    (horizon : ℕ) (s : List (ℤ × ℚ)) :
    (runPipeline df fs horizon = none ↔ applyFilter df fs = []) ∧
    (mae s = none ↔ s.length < 2) ∧
    (mse s = none ↔ s.length < 2) ∧
    (mape s = none ↔ ∀ r ∈ evalTable s, r.actual = 0) := by
  have hlen := length_evalTable s
  have hiff : evalTable s = [] ↔ s.length < 2 := by
    constructor
    · intro hnil
      rw [hnil] at hlen
      simp at hlen
      omega
    · intro h2
      have : (evalTable s).length = 0 := by omega
      exact List.length_eq_zero.mp this
  refine ⟨?_, ?_, ?_, ?_⟩
  · cases hc : (applyFilter df fs).isEmpty <;>
      simp [runPipeline, hc, List.isEmpty_iff, List.isEmpty_eq_false] <;>
      [exact List.isEmpty_eq_false.mp hc; exact List.isEmpty_iff.mp hc]
  · rw [mae, meanOpt]
    by_cases hc : ((evalTable s).map EvalRow.absoluteError).isEmpty <;>
      simp [hc] <;> simp [List.isEmpty_iff, List.map_eq_nil_iff, hiff] at hc <;>
      [exact hc; exact hc]
  · rw [mse, meanOpt]
    by_cases hc : ((evalTable s).map EvalRow.squaredError).isEmpty <;>
      simp [hc] <;> simp [List.isEmpty_iff, List.map_eq_nil_iff, hiff] at hc <;>
      [exact hc; exact hc]
  · rw [mape, meanOpt]
    by_cases hc : (((evalTable s).filter (fun r => decide (r.actual ≠ 0))).map
        (fun r => r.absoluteError / r.actual * 100)).isEmpty <;>
      simp [List.isEmpty_iff, List.map_eq_nil_iff, List.filter_eq_nil_iff] at hc <;>
      simp [hc, List.isEmpty_iff, List.map_eq_nil_iff, List.filter_eq_nil_iff]

/-- C2 (counterexample to the claim as stated): the schema error does not name
the missing column — a table missing `Region` and a table missing `Product`
produce the identical fixed message `"Missing necessary column."` — and a
table missing `Date` does not even reach the schema check: `df["Date"]` on
line 25 raises an uncaught `KeyError` first. -/
theorem schema_error_counterexample :
    loadCsv ⟨["Date", "Product", "Sales"], []⟩
      = .schemaError "Missing necessary column." ∧
    loadCsv ⟨["Date", "Region", "Sales"], []⟩
      = .schemaError "Missing necessary column." ∧
    loadCsv ⟨["Region", "Product", "Sales"], []⟩ = .keyError "Date" := by
  refine ⟨?_, ?_, ?_⟩ <;> decide

/-- C2 (amended): after trimming the headers, a table whose `Date` column is
missing fails with an uncaught `KeyError` at date parsing (before the schema
check); a table with a `Date` column and well-formed dates fails with the
generic message `"Missing necessary column."` (naming no column) when some
required column is absent, and succeeds with the row and column counts when
all four required columns are present — in any column order and with extra
columns allowed. -/
theorem schema_validation_amended (t : RawTable) :
    ("Date" ∉ t.headers.map stripHeader → loadCsv t = .keyError "Date") ∧
    ("Date" ∈ t.headers.map stripHeader → datesOk t = true →
      ((∀ col ∈ needed_cols, col ∈ t.headers.map stripHeader) →
        loadCsv t = .ok t.rows.length t.headers.length) ∧
      ((∃ col ∈ needed_cols, col ∉ t.headers.map stripHeader) →
        loadCsv t = .schemaError "Missing necessary column.")) := by
  constructor
  · intro hnd
    have hnone : (t.headers.map stripHeader).findIdx? (fun c => c = "Date") = none := by
      rw [List.findIdx?_eq_none_iff]
      intro x hx
      simp only [decide_eq_false_iff_not]
      exact fun h => hnd (h ▸ hx)
    simp only [loadCsv, hnone]
  · intro hd hdate
    obtain ⟨i, hi⟩ : ∃ i,
        (t.headers.map stripHeader).findIdx? (fun c => c = "Date") = some i := by
      cases hidx : (t.headers.map stripHeader).findIdx? (fun c => c = "Date") with
      | none =>
        exfalso
        have := List.findIdx?_eq_none_iff.mp hidx "Date" hd
        simp at this
      | some i => exact ⟨i, rfl⟩
    have hfmt : t.rows.all (fun row => dateFormatOk (row.getD i "")) = true := by
      have heq : datesOk t = t.rows.all (fun row => dateFormatOk (row.getD i "")) := by
        simp only [datesOk, hi, Option.getD_some]
      rw [← heq]
      exact hdate
    constructor
    · intro hall
      have hfind : needed_cols.find?
          (fun c => !(t.headers.map stripHeader).contains c) = none := by
        rw [List.find?_eq_none]
        intro x hx
        simp
        exact List.mem_map.mp (hall x hx)
      simp only [loadCsv, hi, hfmt, if_true, hfind, List.length_map]
    · intro hmiss
      obtain ⟨c, hc, hcnot⟩ := hmiss
      obtain ⟨c2, hf⟩ : ∃ c2, needed_cols.find?
          (fun c2 => !(t.headers.map stripHeader).contains c2) = some c2 := by
        cases hfq : needed_cols.find?
            (fun c2 => !(t.headers.map stripHeader).contains c2) with
        | none =>
          exfalso
          have := List.find?_eq_none.mp hfq c hc
          simp at this
          exact hcnot (List.mem_map.mpr this)
        | some c2 => exact ⟨c2, rfl⟩
      simp only [loadCsv, hi, hfmt, if_true, hf]

/-- Witness for C2: a table with all four required columns (one header padded
with whitespace), in a scrambled order and with an extra column, loads
successfully and reports 1 row and 5 columns. -/
theorem schema_validation_amended_witness :
    loadCsv ⟨["Product", " Date ", "Region", "Sales", "Extra"],
      [["A", "2024-01-01", "N", "5", "x"]]⟩ = .ok 1 5 :=
  ((schema_validation_amended _).2 (by decide) (by decide)).1 (by decide)

/-- C7 (counterexample to the claim as stated): pandas `groupby` sorts the
category keys (default `sort=True`), so for a dataset whose products appear
in the order B, A the by-product table lists A before B — not the
insertion/first-appearance order B, A the claim describes. -/
theorem category_order_counterexample :
    (groupedByProduct [⟨0, "N", "B", 5⟩, ⟨1, "N", "A", 7⟩]).map Prod.fst
      = ["A", "B"] ∧
    firstAppearanceProducts [⟨0, "N", "B", 5⟩, ⟨1, "N", "A", 7⟩] = ["B", "A"] ∧
    (["A", "B"] : List String) ≠ ["B", "A"] := by
  refine ⟨?_, by decide, by decide⟩
  rw [show groupedByProduct [⟨0, "N", "B", 5⟩, ⟨1, "N", "A", 7⟩]
      = groupSum Record.product [⟨0, "N", "B", 5⟩, ⟨1, "N", "A", 7⟩] from rfl,
    groupSum_keys]
  simp [List.insertionSort, List.orderedInsert]
  decide

/-- C7 (amended): the by-category aggregations (by product and by region) sum
Sales per distinct category value, but list the categories in ascending sorted
order of the category value — pandas `groupby`'s default `sort=True` — not in
order of first appearance. -/
theorem category_grouping_amended (df : List Record) :
    (List.Sorted (fun a b => a < b) ((groupedByProduct df).map Prod.fst) ∧
      (∀ c : String, c ∈ (groupedByProduct df).map Prod.fst ↔
        c ∈ df.map Record.product) ∧
      ∀ p ∈ groupedByProduct df,
        p.2 = ((df.filter (fun r => decide (r.product = p.1))).map Record.sales).sum) ∧
    (List.Sorted (fun a b => a < b) ((groupedByRegion df).map Prod.fst) ∧
      (∀ c : String, c ∈ (groupedByRegion df).map Prod.fst ↔
        c ∈ df.map Record.region) ∧
      ∀ p ∈ groupedByRegion df,
        p.2 = ((df.filter (fun r => decide (r.region = p.1))).map Record.sales).sum) :=
  ⟨⟨groupSum_keys_sorted Record.product df,
    fun c => groupSum_mem_keys Record.product df c,
    fun _ hp => groupSum_val Record.product df hp⟩,
   ⟨groupSum_keys_sorted Record.region df,
    fun c => groupSum_mem_keys Record.region df c,
    fun _ hp => groupSum_val Record.region df hp⟩⟩

end SalesAnalyzer
